import Mathlib

/-!
Shallow embedding of `chapters/01_dimuon_spectrum/src/analyze.py`
(dimuon invariant-mass analysis pipeline) and verification of its
specification claims.

Strings are modelled by Lean `String`; file contents are modelled as the
list of their lines (newline-stripped); numeric data is modelled over `ℝ`
for the floating-point arithmetic of the reconstruction step and over
`Option ℚ` for the numeric-coercion step (where `none` plays the role of
NaN produced by `pd.to_numeric(errors="coerce")`).
-/

namespace Dimuon

/-! ### Generic list/string helpers used by the embedding -/

/-- Boolean prefix test: `listStarts n h` holds when `n` is a prefix of `h`. -/
def listStarts : List Char → List Char → Bool
  | [], _ => true
  | _ :: _, [] => false
  | a :: as, b :: bs => a == b && listStarts as bs

/-- Boolean substring test: `listHasSub n h` holds when `n` occurs as a
contiguous sublist of `h`.
Models Python's substring test `n in h`. -/
def listHasSub : List Char → List Char → Bool
  | n, [] => n.isEmpty
  | n, h :: hs => listStarts n (h :: hs) || listHasSub n hs

/-- Python's `needle in hay` on strings. -/
def strHasSub (hay needle : String) : Bool :=
  listHasSub needle.data hay.data

/-- Boolean suffix test: whether `s` is a suffix of `l`. -/
def listIsSuffix (s l : List Char) : Bool :=
  listStarts s.reverse l.reverse

/-- Python's `str.strip()`: drop whitespace from both ends. -/
def pyStrip (s : String) : String :=
  ⟨(((s.data.dropWhile Char.isWhitespace).reverse.dropWhile
      Char.isWhitespace).reverse : List Char)⟩

theorem isEmpty_false_of_ne_nil (l : List α) (h : l ≠ []) :
    l.isEmpty = false := by
  cases l with
  | nil => exact absurd rfl h
  | cons a t => rfl

theorem filter_length_add_countP_not (p : α → Bool) (l : List α) :
    (l.filter p).length + l.countP (fun a => ! p a) = l.length := by
  induction l with
  | nil => rfl
  | cons a t ih =>
    by_cases h : p a <;>
      simp only [List.filter_cons, List.countP_cons, h, if_pos, if_neg,
        Bool.not_true, Bool.not_false, List.length_cons, ← ih] <;>
      simp <;> omega

/-- First index in the list satisfying `p`; models a Python
`for i, x in enumerate(xs): if p(x): return i` loop. -/
def findFirstIdx (p : α → Bool) : List α → Option Nat
  | [] => none
  | x :: xs => if p x then some 0 else (findFirstIdx p xs).map (· + 1)

/-- Least element of a list under a linear order; models `sorted(xs)[0]`
(`none` on the empty list). -/
def minString [LinearOrder α] : List α → Option α
  | [] => none
  | x :: xs => some (xs.foldl min x)

theorem findFirstIdx_eq_some_of (p : α → Bool) (l : List α) (i : Nat)
    (hi : i < l.length) (hp : p (l.get ⟨i, hi⟩) = true)
    (hbefore : (l.take i).all (fun x => ! p x) = true) :
    findFirstIdx p l = some i := by
  induction l generalizing i with
  | nil => simp at hi
  | cons a l ih =>
    cases i with
    | zero =>
      simp only [List.get] at hp
      simp [findFirstIdx, hp]
    | succ j =>
      simp only [List.take_succ_cons, List.all_cons, Bool.and_eq_true,
        Bool.not_eq_true'] at hbefore
      have hj : j < l.length := Nat.lt_of_succ_lt_succ hi
      have := ih j hj hp hbefore.2
      simp [findFirstIdx, hbefore.1, this]

theorem findFirstIdx_eq_none_of (p : α → Bool) (l : List α)
    (h : l.all (fun x => ! p x) = true) :
    findFirstIdx p l = none := by
  induction l with
  | nil => rfl
  | cons a l ih =>
    simp only [List.all_cons, Bool.and_eq_true, Bool.not_eq_true'] at h
    simp [findFirstIdx, h.1, ih h.2]

theorem foldl_min_le_init [LinearOrder α] (xs : List α) (x : α) :
    xs.foldl min x ≤ x := by
  induction xs generalizing x with
  | nil => exact le_refl x
  | cons y ys ih =>
    exact le_trans (ih (min x y)) (min_le_left x y)

theorem foldl_min_le_mem [LinearOrder α] (xs : List α) (x : α) :
    ∀ y ∈ xs, xs.foldl min x ≤ y := by
  induction xs generalizing x with
  | nil => intro y hy; simp at hy
  | cons z zs ih =>
    intro y hy
    rcases List.mem_cons.mp hy with rfl | hy'
    · exact le_trans (foldl_min_le_init zs (min x y)) (min_le_right x y)
    · exact ih (min x z) y hy'

theorem foldl_min_mem [LinearOrder α] (xs : List α) (x : α) :
    xs.foldl min x = x ∨ xs.foldl min x ∈ xs := by
  induction xs generalizing x with
  | nil => exact Or.inl rfl
  | cons y ys ih =>
    rcases ih (min x y) with h | h
    · rcases min_cases x y with ⟨he, _⟩ | ⟨he, _⟩
      · exact Or.inl (by simpa [he] using h)
      · exact Or.inr (by simp [List.foldl]; left; rw [h, he])
    · exact Or.inr (by simp [List.foldl]; right; exact h)

theorem minString_mem [LinearOrder α] (l : List α) (c : α)
    (h : minString l = some c) : c ∈ l := by
  cases l with
  | nil => simp [minString] at h
  | cons x xs =>
    simp only [minString, Option.some.injEq] at h
    subst h
    rcases foldl_min_mem xs x with h | h
    · rw [h]; exact List.mem_cons_self _ _
    · exact List.mem_cons.mpr (Or.inr h)

theorem minString_le [LinearOrder α] (l : List α) (c : α)
    (h : minString l = some c) : ∀ x ∈ l, c ≤ x := by
  cases l with
  | nil => simp [minString] at h
  | cons x xs =>
    simp only [minString, Option.some.injEq] at h
    subst h
    intro z hz
    rcases List.mem_cons.mp hz with rfl | hz'
    · exact foldl_min_le_init xs z
    · exact foldl_min_le_mem xs x z hz'

theorem minString_isSome [LinearOrder α] (l : List α) (hne : l ≠ []) :
    ∃ c, minString l = some c := by
  cases l with
  | nil => exact absurd rfl hne
  | cons x xs => exact ⟨xs.foldl min x, rfl⟩

/-! ### Mass reconstruction (`invariant_mass`, analyze.py lines 11–22)

The numpy code sums the two particles' components, forms
`m2 = E_sum**2 - px_sum**2 - py_sum**2 - pz_sum**2` and returns
`np.sqrt(np.maximum(m2, 0.0))`, row by row.  We embed the row-wise
semantics over `ℝ`. -/

/-- Row-wise semantics of `invariant_mass` (analyze.py lines 11–22). -/
noncomputable def invariant_mass (E1 px1 py1 pz1 E2 px2 py2 pz2 : ℝ) : ℝ :=
  let E_sum := E1 + E2
  let px_sum := px1 + px2
  let py_sum := py1 + py2
  let pz_sum := pz1 + pz2
  let m2 := E_sum ^ 2 - px_sum ^ 2 - py_sum ^ 2 - pz_sum ^ 2
  Real.sqrt (max m2 0)

/-- A row of the coerced table: the nine required numeric fields. -/
structure Row where
  E1 : ℝ
  px1 : ℝ
  py1 : ℝ
  pz1 : ℝ
  E2 : ℝ
  px2 : ℝ
  py2 : ℝ
  pz2 : ℝ
  M : ℝ

/-- Computed mass of a row (`m_calc`, analyze.py line 174). -/
noncomputable def massOf (r : Row) : ℝ :=
  invariant_mass r.E1 r.px1 r.py1 r.pz1 r.E2 r.px2 r.py2 r.pz2

/-- Signed residual of a row (`residuals = m_calc - m_given`, line 176). -/
noncomputable def residualOf (r : Row) : ℝ := massOf r - r.M

/-- Residual column of a table. -/
noncomputable def residualsOf (t : List Row) : List ℝ := t.map residualOf

/-- Arithmetic mean (`np.mean`) of a list of reals. -/
noncomputable def listMean (l : List ℝ) : ℝ := l.sum / l.length

/-- Population standard deviation (`np.std`, ddof = 0) of a list. -/
noncomputable def listStd (l : List ℝ) : ℝ :=
  Real.sqrt ((l.map (fun x => (x - listMean l) ^ 2)).sum / l.length)

/-- The metric `residual_rms = float(np.std(residuals))` (analyze.py line 220). -/
noncomputable def residualRmsOf (t : List Row) : ℝ := listStd (residualsOf t)

theorem sum_eq_zero_iff_of_nonneg (l : List ℝ) (h : ∀ x ∈ l, 0 ≤ x) :
    l.sum = 0 ↔ ∀ x ∈ l, x = 0 := by
  induction l with
  | nil => simp
  | cons a l ih =>
    have ha : 0 ≤ a := h a (List.mem_cons_self _ _)
    have hl : ∀ x ∈ l, 0 ≤ x := fun x hx => h x (List.mem_cons.mpr (Or.inr hx))
    have hs : 0 ≤ l.sum := List.sum_nonneg hl
    simp only [List.sum_cons, List.mem_cons]
    constructor
    · intro h0
      have ha0 : a = 0 := by linarith
      have hs0 : l.sum = 0 := by linarith
      intro x hx
      rcases hx with rfl | hx
      · exact ha0
      · exact (ih hl).mp hs0 x hx
    · intro hall
      have ha0 : a = 0 := hall a (Or.inl rfl)
      have : l.sum = 0 := (ih hl).mpr fun x hx => hall x (Or.inr hx)
      rw [ha0, this, add_zero]

/-! ### File locator (`find_csv_file`, analyze.py lines 25–43)

The directory is modelled by its immediate file entries and one level of
subdirectories (the function only ever looks at `*.csv` and `*/*.csv`).
`glob` patterns starting with `*` do not match names beginning with a
dot, and `sorted(csv_files)[0]` picks the lexicographically least path
(Lean's `String` order is lexicographic on characters, as Python's). -/

/-- One immediate subdirectory: its name and its immediate file entries. -/
structure SubDir where
  name : String
  files : List String
deriving DecidableEq

/-- The input directory as seen by `find_csv_file`. -/
structure DataDir where
  name : String
  dirExists : Bool
  files : List String
  subdirs : List SubDir
deriving DecidableEq

/-- Does a name match the glob pattern `*.csv`?  (`*` does not match a
leading dot.) -/
def isCsvEntry (n : String) : Bool :=
  listIsSuffix ".csv".data n.data && !(listStarts ".".data n.data)

/-- Is a subdirectory visible to the glob pattern `*/...`? -/
def isVisibleDir (s : SubDir) : Bool := !(listStarts ".".data s.name.data)

/-- Candidates from `data_dir.glob("*.csv")`. -/
def topCsvFiles (d : DataDir) : List String := d.files.filter isCsvEntry

/-- Candidates from `data_dir.glob("*/*.csv")`, as `subdir/name` paths. -/
def subCsvFiles (d : DataDir) : List String :=
  (d.subdirs.filter isVisibleDir).flatMap
    (fun s => (s.files.filter isCsvEntry).map (fun f => s.name ++ "/" ++ f))

/-- Everything `data_dir.rglob("*")` can see, used only in the
"no CSV found" error listing. -/
def allEntries (d : DataDir) : List String :=
  d.files ++ d.subdirs.flatMap (fun s => s.name :: s.files.map (fun f => s.name ++ "/" ++ f))

/-- The two failure modes of the locator (`FileNotFoundError`s with
distinct messages, analyze.py lines 30 and 38–41). -/
inductive LocateError where
  | dirNotFound (dir : String)
  | noCsvFound (dir : String) (listing : List String)
deriving DecidableEq

/-- The locator `find_csv_file` (analyze.py lines 25–43). -/
def find_csv_file (d : DataDir) : Except LocateError String :=
  if !d.dirExists then .error (.dirNotFound d.name)
  else
    let csv_files := topCsvFiles d
    let csv_files := if csv_files.isEmpty then subCsvFiles d else csv_files
    match minString csv_files with
    | none => .error (.noCsvFound d.name ((allEntries d).take 50))
    | some c => .ok c

/-! ### Delimiter sniffing (`_sniff_delimiter`, analyze.py lines 46–62)

`counts = {c: sample_text.count(c) for c in candidates}` counts each
single-character candidate; `max(counts, key=counts.get)` iterates the
dict in insertion order `[",", ";", "\t", "|"]` and replaces the running
best only on a strictly greater value, hence returns the FIRST key
attaining the maximum.  The `csv.Sniffer` fallback is external library
code, modelled as an abstract function `fb : String → Option Char`
(`none` = the sniffer raised). -/

/-- Candidate delimiters, in the code's fixed order. -/
def delimCandidates : List Char := [',', ';', '\t', '|']

/-- Occurrence count `sample_text.count(c)` for a single-character needle. -/
def countChar (s : String) (c : Char) : Nat := s.data.count c

/-- Python's `max(xs, key=f)` over a nonempty list `c :: rest`:
replace the running best only on a strictly greater key. -/
def pyMaxFirst (f : Char → Nat) (c : Char) (rest : List Char) : Char :=
  rest.foldl (fun b x => if f b < f x then x else b) c

/-- The largest candidate count in the sample. -/
def maxDelimCount (s : String) : Nat :=
  max (max (max (countChar s ',') (countChar s ';')) (countChar s '\t'))
    (countChar s '|')

/-- The sniffer `_sniff_delimiter` (analyze.py lines 46–62), with the `csv.Sniffer`
fallback abstracted as `fb`. -/
def sniff_delimiter (fb : String → Option Char) (sample_text : String) : Char :=
  let best := pyMaxFirst (countChar sample_text) ',' [';', '\t', '|']
  if 0 < countChar sample_text best then best
  else (fb sample_text).getD ','

/-! ### Header detection (`_detect_header_line`, analyze.py lines 65–85) -/

/-- The nine required column names (analyze.py lines 71 and 145–146). -/
def requiredCols : List String :=
  ["E1", "px1", "py1", "pz1", "E2", "px2", "py2", "pz2", "M"]

/-- Hit count `sum(1 for k in required if k in ln)`. -/
def headerHits (ln : String) : Nat :=
  requiredCols.countP (fun k => strHasSub ln k)

/-- First-pass predicate: at least 5 required columns named in the line. -/
def isStrongHeader (ln : String) : Bool := 5 ≤ headerHits ln

/-- Second-pass predicate: the line has a candidate delimiter and an
ASCII letter (`re.search(r"[A-Za-z]", ln)`). -/
def looksTabular (ln : String) : Bool :=
  (delimCandidates.any (fun d => ln.data.contains d)) &&
    ln.data.any (fun ch => ch.isUpper || ch.isLower)

/-- Header detection `_detect_header_line` (analyze.py lines 65–85). -/
def detectHeaderLine (lines : List String) : Nat :=
  match findFirstIdx isStrongHeader lines with
  | some i => i
  | none =>
    match findFirstIdx looksTabular lines with
    | some i => i
    | none => 0

/-! ### The sample-reading + sniffing step of `load_table_robust`
(analyze.py lines 95–103)

`first_lines = [next(f) for _ in range(80)]` calls `next` eighty times;
when the file has fewer than 80 lines, `next` raises `StopIteration`,
which propagates out of the list comprehension and aborts the load (the
subsequent `if ln is not None` filter never fires, since `next` either
returns a line or raises).  A file is modelled as its list of
newline-stripped lines. -/

/-- The `[next(f) for _ in range(80)]` sample read: fails with
`StopIteration` on files of fewer than 80 lines. -/
def readFirstLines (fileLines : List String) : Except String (List String) :=
  if fileLines.length < 80 then .error "StopIteration"
  else .ok (fileLines.take 80)

/-- The format-sniffing step of `load_table_robust` (lines 95–103):
read the 80-line sample, detect the header index, sniff the delimiter
from the 20-line window starting at the header. -/
def sniffFormat (fb : String → Option Char) (fileLines : List String) :
    Except String (Nat × Char) := do
  let first_lines ← readFirstLines fileLines
  let header_idx := detectHeaderLine first_lines
  let sample := String.intercalate "\n" ((first_lines.drop header_idx).take 20)
  pure (header_idx, sniff_delimiter fb sample)

/-! ### Required-column check (analyze.py lines 145–153)

`load_table_robust` strips whitespace from every column name
(line 122); `run_analysis` then computes
`missing = [c for c in required_cols if c not in df.columns]` and raises
a `ValueError` carrying both `missing` and the full column list. -/

/-- The schema check of `run_analysis` (lines 148–153), applied to the
already-trimmed column names.  On failure the error carries the missing
names and the full list of columns found. -/
def checkRequiredColumns (cols : List String) : Except (List String × List String) Unit :=
  let missing := requiredCols.filter (fun c => !(cols.contains c))
  if missing.isEmpty then .ok () else .error (missing, cols)

/-! ### Numeric coercion (analyze.py lines 155–164)

`pd.to_numeric(df[c], errors="coerce")` turns each unparsable value into
NaN; a raw cell is therefore modelled as `Option ℚ` (`none` = NaN after
coercion).  `df.dropna(subset=required_cols)` keeps exactly the rows
whose nine required fields are all numeric. -/

/-- A loaded row after `to_numeric` coercion of the nine required
columns: `none` marks a value that failed conversion. -/
structure RawRecord where
  E1 : Option ℚ
  px1 : Option ℚ
  py1 : Option ℚ
  pz1 : Option ℚ
  E2 : Option ℚ
  px2 : Option ℚ
  py2 : Option ℚ
  pz2 : Option ℚ
  M : Option ℚ
deriving DecidableEq

/-- A row survives `dropna(subset=required_cols)` iff all nine required
fields are numeric. -/
def rowValid (r : RawRecord) : Bool :=
  r.E1.isSome && r.px1.isSome && r.py1.isSome && r.pz1.isSome &&
    r.E2.isSome && r.px2.isSome && r.py2.isSome && r.pz2.isSome && r.M.isSome

/-- The coercion/drop step of `run_analysis` (lines 155–164): keep the
valid rows; if none remain raise `ValueError`; otherwise return the kept
rows together with the drop count surfaced by the informational
`print` (line 164). -/
def coerceRows (rows : List RawRecord) : Except String (List RawRecord × Nat) :=
  let kept := rows.filter rowValid
  if kept.isEmpty then
    .error "After numeric coercion, no valid rows remained. Check the CSV formatting."
  else .ok (kept, rows.length - kept.length)

/-! ### Concrete inputs used by witnesses and counterexamples -/

/-- A single row with `E1 = E2 = 1`, all momenta `0` and reference
`M = 0`: its computed mass is `2`, so its residual is the nonzero
constant `2`, yet `np.std` of the one-element residual list is `0`. -/
def cexRow : Row := ⟨1, 0, 0, 0, 1, 0, 0, 0, 0⟩

/-- A perfectly well-formed CSV file of only 3 lines. -/
def shortFile : List String :=
  ["# cern open data", "E1,px1,py1,pz1,E2,px2,py2,pz2,M", "1,2,3,4,5,6,7,8,9"]

/-! ### Claims -/

/-- Claim C1: For every row, the computed invariant mass equals
`sqrt(max(E_sum² − px_sum² − py_sum² − pz_sum², 0))`; whenever
`E_sum² ≥ px_sum² + py_sum² + pz_sum²` it equals
`sqrt(E_sum² − px_sum² − py_sum² − pz_sum²)`, whenever that quantity is
negative it equals `0`, and it is always a well-defined non-negative
real (no NaN, no domain error). -/
theorem c1_invariant_mass_clamp (E1 px1 py1 pz1 E2 px2 py2 pz2 : ℝ) :
    invariant_mass E1 px1 py1 pz1 E2 px2 py2 pz2 =
      Real.sqrt (max ((E1 + E2) ^ 2 - (px1 + px2) ^ 2 - (py1 + py2) ^ 2 - (pz1 + pz2) ^ 2) 0) ∧
    ((px1 + px2) ^ 2 + (py1 + py2) ^ 2 + (pz1 + pz2) ^ 2 ≤ (E1 + E2) ^ 2 →
      invariant_mass E1 px1 py1 pz1 E2 px2 py2 pz2 =
        Real.sqrt ((E1 + E2) ^ 2 - (px1 + px2) ^ 2 - (py1 + py2) ^ 2 - (pz1 + pz2) ^ 2)) ∧
    ((E1 + E2) ^ 2 - (px1 + px2) ^ 2 - (py1 + py2) ^ 2 - (pz1 + pz2) ^ 2 < 0 →
      invariant_mass E1 px1 py1 pz1 E2 px2 py2 pz2 = 0) ∧
    0 ≤ invariant_mass E1 px1 py1 pz1 E2 px2 py2 pz2 := by
  refine ⟨rfl, ?_, ?_, Real.sqrt_nonneg _⟩
  · intro h
    simp only [invariant_mass]
    rw [max_eq_left (by linarith)]
  · intro h
    simp only [invariant_mass]
    rw [max_eq_right (le_of_lt h), Real.sqrt_zero]

/-- Witness for C1 at the spec's example `E1=E2=1, px1=px2=10,
py=pz=0` (clamped to 0) and at a timelike example. -/
theorem c1_invariant_mass_clamp_witness :
    invariant_mass 1 10 0 0 1 10 0 0 = 0 ∧
    invariant_mass 1 0 0 0 1 0 0 0 =
      Real.sqrt ((1 + 1) ^ 2 - (0 + 0) ^ 2 - (0 + 0) ^ 2 - (0 + 0) ^ 2) :=
  ⟨(c1_invariant_mass_clamp 1 10 0 0 1 10 0 0).2.2.1 (by norm_num),
   (c1_invariant_mass_clamp 1 0 0 0 1 0 0 0).2.1 (by norm_num)⟩

/-- Claim C2, counterexample: The claim "residual_rms = 0 iff every
row's computed mass equals its reference M" fails: on the one-row table
`[cexRow]` the residual is the constant `2`, `np.std` of it is `0`, yet
the computed mass `2` differs from the reference `M = 0`. -/
theorem c2_counterexample :
    residualRmsOf [cexRow] = 0 ∧ massOf cexRow ≠ cexRow.M := by
  have hm : massOf cexRow = 2 := by
    simp only [massOf, invariant_mass, cexRow]
    norm_num
    rw [show (4 : ℝ) = 2 ^ 2 by norm_num, Real.sqrt_sq (by norm_num : (0:ℝ) ≤ 2)]
  constructor
  · simp only [residualRmsOf, residualsOf, listStd, listMean, residualOf,
      List.map, hm, cexRow, List.sum_cons, List.sum_nil, List.length_cons,
      List.length_nil]
    norm_num
  · rw [hm]
    simp only [cexRow]
    norm_num

/-- Claim C2, amended: For every nonempty coerced table: the per-row
residual is the signed difference `computed_mass − M`; `residual_rms`
is the population standard deviation of the residuals (dividing by `N`,
not `N − 1`); it is always non-negative; and it is `0` iff every row's
residual equals the mean residual (i.e. all rows share one common
residual value) — not iff every computed mass equals its reference `M`. -/
theorem c2_residual_rms_population_std (t : List Row) (hne : t ≠ []) :
    residualsOf t = t.map (fun r => massOf r - r.M) ∧
    residualRmsOf t =
      Real.sqrt (((residualsOf t).map
        (fun x => (x - listMean (residualsOf t)) ^ 2)).sum / (t.length : ℝ)) ∧
    0 ≤ residualRmsOf t ∧
    (residualRmsOf t = 0 ↔ ∀ r ∈ t, residualOf r = listMean (residualsOf t)) := by
  have hlen : (residualsOf t).length = t.length := List.length_map _ _
  have hNpos : 0 < (t.length : ℝ) := by
    have : 0 < t.length := List.length_pos.mpr hne
    exact_mod_cast this
  refine ⟨rfl, ?_, Real.sqrt_nonneg _, ?_⟩
  · simp only [residualRmsOf, listStd, hlen]
  · have hS : 0 ≤ ((residualsOf t).map
        (fun x => (x - listMean (residualsOf t)) ^ 2)).sum := by
      refine List.sum_nonneg ?_
      intro x hx
      rcases List.mem_map.mp hx with ⟨y, _, rfl⟩
      positivity
    constructor
    · intro h0
      simp only [residualRmsOf, listStd, hlen] at h0
      have hle := Real.sqrt_eq_zero'.mp h0
      have hSle : ((residualsOf t).map
          (fun x => (x - listMean (residualsOf t)) ^ 2)).sum ≤ 0 := by
        by_contra hc
        push_neg at hc
        have := div_pos hc hNpos
        linarith
      have hSzero : ((residualsOf t).map
          (fun x => (x - listMean (residualsOf t)) ^ 2)).sum = 0 :=
        le_antisymm hSle hS
      have hall := (sum_eq_zero_iff_of_nonneg _ (by
        intro x hx
        rcases List.mem_map.mp hx with ⟨y, _, rfl⟩
        positivity)).mp hSzero
      intro r hr
      have hmem : residualOf r ∈ residualsOf t := List.mem_map_of_mem _ hr
      have := hall _ (List.mem_map_of_mem (fun x => (x - listMean (residualsOf t)) ^ 2) hmem)
      have := pow_eq_zero_iff (n := 2) (by norm_num) |>.mp this
      linarith [sub_eq_zero.mp this]
    · intro hall
      simp only [residualRmsOf, listStd, hlen]
      have hSzero : ((residualsOf t).map
          (fun x => (x - listMean (residualsOf t)) ^ 2)).sum = 0 := by
        refine (sum_eq_zero_iff_of_nonneg _ ?_).mpr ?_
        · intro x hx
          rcases List.mem_map.mp hx with ⟨y, _, rfl⟩
          positivity
        · intro x hx
          rcases List.mem_map.mp hx with ⟨y, hy, rfl⟩
          rcases List.mem_map.mp hy with ⟨r, hr, rfl⟩
          rw [hall r hr]
          ring
      rw [hSzero, zero_div, Real.sqrt_zero]

/-- Witness for C2 (amended) at the one-row table `[cexRow]`. -/
theorem c2_residual_rms_population_std_witness :
    [cexRow] ≠ [] ∧
    0 ≤ residualRmsOf [cexRow] ∧
    residualRmsOf [cexRow] =
      Real.sqrt (((residualsOf [cexRow]).map
        (fun x => (x - listMean (residualsOf [cexRow])) ^ 2)).sum /
          (([cexRow] : List Row).length : ℝ)) :=
  ⟨by simp,
   (c2_residual_rms_population_std [cexRow] (by simp)).2.2.1,
   (c2_residual_rms_population_std [cexRow] (by simp)).2.1⟩

/-- Claim C3, code evaluated at the failing input: On a perfectly
readable 3-line CSV file the sample-reading step of `load_table_robust`
raises `StopIteration` instead of returning a `(header_idx, delimiter)`
pair: `[next(f) for _ in range(80)]` demands 80 lines unconditionally. -/
theorem c3_sniff_raises_on_short_file :
    sniffFormat (fun _ => none) shortFile = .error "StopIteration" := rfl

/-- Claim C4: Header detection follows the code's priority order: the
result is the first line index with at least 5 required-column
substring hits; failing that, the first index of a line containing a
candidate delimiter and an ASCII letter; failing that, `0`. -/
theorem c4_detect_header_priority (lines : List String) :
    (∀ i (hi : i < lines.length),
      isStrongHeader (lines.get ⟨i, hi⟩) = true →
      (lines.take i).all (fun ln => ! isStrongHeader ln) = true →
      detectHeaderLine lines = i) ∧
    (lines.all (fun ln => ! isStrongHeader ln) = true →
      ∀ i (hi : i < lines.length),
      looksTabular (lines.get ⟨i, hi⟩) = true →
      (lines.take i).all (fun ln => ! looksTabular ln) = true →
      detectHeaderLine lines = i) ∧
    (lines.all (fun ln => ! isStrongHeader ln) = true →
      lines.all (fun ln => ! looksTabular ln) = true →
      detectHeaderLine lines = 0) := by
  refine ⟨?_, ?_, ?_⟩
  · intro i hi hp hb
    unfold detectHeaderLine
    rw [findFirstIdx_eq_some_of _ _ i hi hp hb]
  · intro hall i hi hp hb
    unfold detectHeaderLine
    rw [findFirstIdx_eq_none_of _ _ hall, findFirstIdx_eq_some_of _ _ i hi hp hb]
  · intro h1 h2
    unfold detectHeaderLine
    rw [findFirstIdx_eq_none_of _ _ h1, findFirstIdx_eq_none_of _ _ h2]

/-- The spec's header-detection example: two preamble lines, then the
full header. -/
def headerSample : List String :=
  ["# preamble line", "# another preamble", "E1,px1,py1,pz1,E2,px2,py2,pz2,M,extra"]

/-- Witness for C4: on `headerSample` the detected header index is 2. -/
theorem c4_detect_header_priority_witness :
    isStrongHeader (headerSample.get ⟨2, by decide⟩) = true ∧
    detectHeaderLine headerSample = 2 :=
  ⟨by decide,
   (c4_detect_header_priority headerSample).1 2 (by decide) (by decide) (by decide)⟩

/-! Helper characterisations of `sniff_delimiter`. -/

theorem sniffAttainsMax (fb : String → Option Char) (s : String)
    (h : 0 < maxDelimCount s) :
    countChar s (sniff_delimiter fb s) = maxDelimCount s := by
  simp only [sniff_delimiter, pyMaxFirst, List.foldl, maxDelimCount] at *
  split_ifs <;> omega

theorem sniffMem (fb : String → Option Char) (s : String)
    (h : 0 < maxDelimCount s) :
    sniff_delimiter fb s ∈ delimCandidates := by
  simp only [sniff_delimiter, pyMaxFirst, List.foldl, maxDelimCount,
    delimCandidates] at *
  split_ifs <;> first | decide | (exfalso; omega)

theorem sniffFallback (fb : String → Option Char) (s : String)
    (h : maxDelimCount s = 0) :
    sniff_delimiter fb s = (fb s).getD ',' := by
  simp only [sniff_delimiter, pyMaxFirst, List.foldl, maxDelimCount] at *
  split_ifs <;> first | rfl | (exfalso; omega)

theorem countLeMax (s : String) : ∀ c ∈ delimCandidates, countChar s c ≤ maxDelimCount s := by
  intro c hc
  simp only [delimCandidates, List.mem_cons, List.not_mem_nil, or_false] at hc
  rcases hc with rfl | rfl | rfl | rfl <;> (simp only [maxDelimCount]; omega)

/-- Claim C5: Whenever some candidate delimiter occurs in the sample, the
sniffed delimiter is a candidate whose occurrence count is maximal
among `, ; \t |`; when all four counts are zero, the result is the
secondary inference's output when it succeeds, and `,` when it fails
(`(fb s).getD ','`). -/
theorem c5_delimiter_choice (fb : String → Option Char) (s : String) :
    (0 < maxDelimCount s →
      sniff_delimiter fb s ∈ delimCandidates ∧
      ∀ c ∈ delimCandidates, countChar s c ≤ countChar s (sniff_delimiter fb s)) ∧
    (countChar s ',' = 0 ∧ countChar s ';' = 0 ∧ countChar s '\t' = 0 ∧
        countChar s '|' = 0 →
      sniff_delimiter fb s = (fb s).getD ',') := by
  constructor
  · intro h
    refine ⟨sniffMem fb s h, ?_⟩
    intro c hc
    rw [sniffAttainsMax fb s h]
    exact countLeMax s c hc
  · intro ⟨h1, h2, h3, h4⟩
    refine sniffFallback fb s ?_
    simp only [maxDelimCount, h1, h2, h3, h4]
    omega

/-- Witness for C5 on `"a,b"` (comma-rich) and `"xyz"` (no delimiter,
fallback succeeding with `;`). -/
theorem c5_delimiter_choice_witness :
    sniff_delimiter (fun _ => none) "a,b" ∈ delimCandidates ∧
    countChar "a,b" ',' ≤ countChar "a,b" (sniff_delimiter (fun _ => none) "a,b") ∧
    sniff_delimiter (fun _ => some ';') "xyz" = ';' :=
  ⟨((c5_delimiter_choice (fun _ => none) "a,b").1 (by decide)).1,
   ((c5_delimiter_choice (fun _ => none) "a,b").1 (by decide)).2 ',' (by decide),
   (c5_delimiter_choice (fun _ => some ';') "xyz").2 (by decide)⟩

/-- Claim C9: When the maximal candidate count is positive — in
particular under ties — the sniffed delimiter attains that maximum and
comes no later in the fixed order `, ; \t |` than any other candidate
attaining it: the tie-break is deterministic, preferring the earliest
candidate. -/
theorem c9_delimiter_tie_break (fb : String → Option Char) (s : String)
    (h : 0 < maxDelimCount s) :
    sniff_delimiter fb s ∈ delimCandidates ∧
    countChar s (sniff_delimiter fb s) = maxDelimCount s ∧
    ∀ c ∈ delimCandidates, countChar s c = maxDelimCount s →
      delimCandidates.indexOf (sniff_delimiter fb s) ≤ delimCandidates.indexOf c := by
  refine ⟨sniffMem fb s h, sniffAttainsMax fb s h, ?_⟩
  intro c hc hceq
  simp only [delimCandidates, List.mem_cons, List.not_mem_nil, or_false] at hc
  rcases hc with rfl | rfl | rfl | rfl <;>
  · simp only [sniff_delimiter, pyMaxFirst, List.foldl, maxDelimCount,
      delimCandidates] at *
    split_ifs <;> first | decide | omega

/-- Witness for C9 on `";\t;\t"`, where `;` and tab are tied at count 2:
the sniffer returns `;`, the earlier candidate. -/
theorem c9_delimiter_tie_break_witness :
    countChar ";\t;\t" (sniff_delimiter (fun _ => none) ";\t;\t") =
      maxDelimCount ";\t;\t" ∧
    delimCandidates.indexOf (sniff_delimiter (fun _ => none) ";\t;\t") ≤
      delimCandidates.indexOf '\t' :=
  ⟨(c9_delimiter_tie_break (fun _ => none) ";\t;\t" (by decide)).2.1,
   (c9_delimiter_tie_break (fun _ => none) ";\t;\t" (by decide)).2.2 '\t'
     (by decide) (by decide)⟩

/-- Claim C6: Whenever at least one required column is absent from the
(whitespace-trimmed) loaded column names, the schema check fails with
an error carrying exactly the missing required names and the full list
of columns found, and never returns success. -/
theorem c6_missing_columns (rawCols : List String)
    (h : ∃ c ∈ requiredCols, c ∉ rawCols.map pyStrip) :
    ∃ missing,
      checkRequiredColumns (rawCols.map pyStrip) =
        .error (missing, rawCols.map pyStrip) ∧
      (∀ c, c ∈ missing ↔ c ∈ requiredCols ∧ c ∉ rawCols.map pyStrip) ∧
      checkRequiredColumns (rawCols.map pyStrip) ≠ .ok () ∧
      missing ≠ [] := by
  obtain ⟨c, hcr, hcn⟩ := h
  set cols := rawCols.map pyStrip with hcols
  set missing := requiredCols.filter (fun c => !(cols.contains c)) with hmiss
  have hmem : ∀ x, x ∈ missing ↔ x ∈ requiredCols ∧ x ∉ cols := by
    intro x
    rw [hmiss, List.mem_filter]
    simp [List.contains, List.elem_iff]
  have hne : missing ≠ [] := by
    intro hnil
    have : c ∈ missing := (hmem c).mpr ⟨hcr, hcn⟩
    rw [hnil] at this
    exact List.not_mem_nil c this
  have hempty : missing.isEmpty = false := isEmpty_false_of_ne_nil _ hne
  refine ⟨missing, ?_, hmem, ?_, hne⟩
  · simp only [checkRequiredColumns]
    rw [← hmiss, hempty]
    rfl
  · simp only [checkRequiredColumns]
    rw [← hmiss, hempty]
    simp

/-- The spec's missing-column scenario: a table lacking `pz2` (and with
an untrimmed name and an extra column). -/
def cexCols : List String :=
  [" E1 ", "px1", "py1", "pz1", "E2", "px2", "py2", "M", "extra"]

/-- Witness for C6 on `cexCols`: `pz2` is missing, so the check never
returns success. -/
theorem c6_missing_columns_witness :
    ("pz2" ∈ requiredCols ∧ "pz2" ∉ cexCols.map pyStrip) ∧
    checkRequiredColumns (cexCols.map pyStrip) ≠ .ok () := by
  obtain ⟨m, h1, hmem, h3, h4⟩ :=
    c6_missing_columns cexCols ⟨"pz2", by decide, by decide⟩
  exact ⟨⟨by decide, by decide⟩, h3⟩

/-- Claim C7: After coercion and row-dropping: if no valid row remains
the run raises a fatal error; if at least one row is valid the run
continues, reporting as events exactly the number of surviving rows and
surfacing the drop count (the number of rows with a missing-value
marker in some required column) as a non-fatal diagnostic. -/
theorem c7_coercion_drop (rows : List RawRecord) :
    ((∀ r ∈ rows, rowValid r = false) →
      coerceRows rows =
        .error "After numeric coercion, no valid rows remained. Check the CSV formatting.") ∧
    ((∃ r ∈ rows, rowValid r = true) →
      coerceRows rows =
        .ok (rows.filter rowValid, rows.length - (rows.filter rowValid).length) ∧
      0 < (rows.filter rowValid).length ∧
      (rows.filter rowValid).length +
        rows.countP (fun r => ! rowValid r) = rows.length) := by
  constructor
  · intro hall
    have hnil : rows.filter rowValid = [] := by
      rw [List.filter_eq_nil_iff]
      intro a ha
      rw [hall a ha]
      simp
    simp only [coerceRows, hnil]
    rfl
  · intro ⟨r, hr, hvr⟩
    have hmemf : r ∈ rows.filter rowValid := List.mem_filter.mpr ⟨hr, hvr⟩
    have hne : rows.filter rowValid ≠ [] := by
      intro hnil
      rw [hnil] at hmemf
      exact List.not_mem_nil r hmemf
    have hempty : (rows.filter rowValid).isEmpty = false :=
      isEmpty_false_of_ne_nil _ hne
    refine ⟨?_, List.length_pos.mpr hne, ?_⟩
    · simp only [coerceRows, hempty]
      rfl
    · exact filter_length_add_countP_not rowValid rows

/-- The spec's row-drop scenario, 100 rows with 10 invalid: a fully
numeric row... -/
def validRec : RawRecord :=
  ⟨some 1, some 2, some 3, some 4, some 5, some 6, some 7, some 8, some 9⟩

/-- A row whose `E1` failed numeric coercion. -/
def invalidRec : RawRecord :=
  ⟨none, some 2, some 3, some 4, some 5, some 6, some 7, some 8, some 9⟩

/-- Ninety valid rows followed by ten invalid ones. -/
def cexRows : List RawRecord :=
  List.replicate 90 validRec ++ List.replicate 10 invalidRec

/-- Witness for C7 on `cexRows`: the run succeeds with 90 events and a
drop count of 10. -/
theorem c7_coercion_drop_witness :
    rowValid validRec = true ∧
    coerceRows cexRows =
      .ok (cexRows.filter rowValid, cexRows.length - (cexRows.filter rowValid).length) ∧
    (cexRows.filter rowValid).length = 90 ∧
    cexRows.length - (cexRows.filter rowValid).length = 10 :=
  ⟨by decide,
   ((c7_coercion_drop cexRows).2 ⟨validRec, by decide, by decide⟩).1,
   by decide, by decide⟩

/-! Helper lemmas for the file-locator claims. -/

theorem listStarts_append (p l t : List Char) (h : listStarts p l = true) :
    listStarts p (l ++ t) = true := by
  induction p generalizing l with
  | nil => rfl
  | cons x xs ih =>
    cases l with
    | nil => simp [listStarts] at h
    | cons y ys =>
      simp only [listStarts, Bool.and_eq_true] at h
      simp only [List.cons_append, listStarts, Bool.and_eq_true]
      exact ⟨h.1, ih ys h.2⟩

theorem listIsSuffix_append_left (s a b : List Char)
    (h : listIsSuffix s b = true) : listIsSuffix s (a ++ b) = true := by
  simp only [listIsSuffix, List.reverse_append] at *
  exact listStarts_append _ _ _ h

/-- Claim C8: The locator: a non-existent directory is its own error;
with top-level CSV candidates present it returns the lexicographically
least of them; with none it searches exactly the immediate
subdirectories and returns the least of those candidates; with no
candidate at either level it fails with the distinct
"no CSV found" error enumerating (a bounded sample of) the directory
contents. -/
theorem c8_find_csv_file (d : DataDir) :
    (d.dirExists = false → find_csv_file d = .error (.dirNotFound d.name)) ∧
    (d.dirExists = true → topCsvFiles d ≠ [] →
      ∃ c, find_csv_file d = .ok c ∧ c ∈ topCsvFiles d ∧
        ∀ x ∈ topCsvFiles d, c ≤ x) ∧
    (d.dirExists = true → topCsvFiles d = [] → subCsvFiles d ≠ [] →
      ∃ c, find_csv_file d = .ok c ∧ c ∈ subCsvFiles d ∧
        ∀ x ∈ subCsvFiles d, c ≤ x) ∧
    (d.dirExists = true → topCsvFiles d = [] → subCsvFiles d = [] →
      find_csv_file d = .error (.noCsvFound d.name ((allEntries d).take 50))) ∧
    (∀ n l, LocateError.dirNotFound n ≠ LocateError.noCsvFound n l) := by
  refine ⟨?_, ?_, ?_, ?_, fun n l h => by cases h⟩
  · intro h
    simp [find_csv_file, h]
  · intro hex htop
    obtain ⟨c, hc⟩ := minString_isSome (topCsvFiles d) htop
    refine ⟨c, ?_, minString_mem _ _ hc, minString_le _ _ hc⟩
    simp [find_csv_file, hex, isEmpty_false_of_ne_nil _ htop, hc]
  · intro hex htop hsub
    obtain ⟨c, hc⟩ := minString_isSome (subCsvFiles d) hsub
    refine ⟨c, ?_, minString_mem _ _ hc, minString_le _ _ hc⟩
    simp [find_csv_file, hex, htop, hc]
  · intro hex htop hsub
    simp [find_csv_file, hex, htop, hsub, minString]

/-- A directory whose only top-level CSV entry is `b.csv`. -/
def cexDirTop : DataDir :=
  ⟨"data", true, ["notes.txt", "b.csv"], [⟨"sub", ["c.csv"]⟩]⟩

/-- Witness for C8 on `cexDirTop`: the locator returns the top-level
candidate `b.csv`, which is minimal among the (single) candidates, and
the two failure modes are distinct errors. -/
theorem c8_find_csv_file_witness :
    cexDirTop.dirExists = true ∧
    topCsvFiles cexDirTop ≠ [] ∧
    find_csv_file cexDirTop = .ok "b.csv" ∧
    "b.csv" ∈ topCsvFiles cexDirTop ∧
    LocateError.dirNotFound "data" ≠ LocateError.noCsvFound "data" [] := by
  obtain ⟨c, hok, hmem, hle⟩ := (c8_find_csv_file cexDirTop).2.1 rfl (by decide)
  have hval : find_csv_file cexDirTop = .ok "b.csv" := rfl
  have hc : c = "b.csv" := by
    rw [hval] at hok
    exact (Except.ok.inj hok.symm)
  subst hc
  exact ⟨rfl, by decide, hok, hmem,
    (c8_find_csv_file cexDirTop).2.2.2.2 "data" []⟩

/-- Claim C10: Whenever the locator succeeds, the returned path ends in
`.csv` and is either an immediate file entry of the data directory or
`sub/name` for an immediate file entry `name` of an immediate
subdirectory `sub` — never anything deeper and never a non-CSV name. -/
theorem c10_locator_result_shape (d : DataDir) (c : String)
    (h : find_csv_file d = .ok c) :
    listIsSuffix ".csv".data c.data = true ∧
    (c ∈ d.files ∨ ∃ s ∈ d.subdirs, ∃ f ∈ s.files, c = s.name ++ "/" ++ f) := by
  have hcand : c ∈ topCsvFiles d ∨ c ∈ subCsvFiles d := by
    by_cases hex : d.dirExists = true
    · simp only [find_csv_file, hex, Bool.not_true, Bool.false_eq_true,
        if_false] at h
      rcases hmin : minString (if (topCsvFiles d).isEmpty then subCsvFiles d
          else topCsvFiles d) with _ | c2
      · rw [hmin] at h
        exact absurd h (by simp)
      · rw [hmin] at h
        have hc2 : c2 = c := by
          simpa using h
        subst hc2
        have hmem := minString_mem _ _ hmin
        by_cases hemp : (topCsvFiles d).isEmpty
        · rw [if_pos hemp] at hmem
          exact Or.inr hmem
        · rw [if_neg hemp] at hmem
          exact Or.inl hmem
    · rw [Bool.not_eq_true] at hex
      simp [find_csv_file, hex] at h
  rcases hcand with hc | hc
  · rcases List.mem_filter.mp hc with ⟨hf, hcsv⟩
    simp only [isCsvEntry, Bool.and_eq_true] at hcsv
    exact ⟨hcsv.1, Or.inl hf⟩
  · simp only [subCsvFiles, List.mem_flatMap] at hc
    obtain ⟨s, hs, hcs⟩ := hc
    rcases List.mem_filter.mp hs with ⟨hsmem, _⟩
    rcases List.mem_map.mp hcs with ⟨f, hf, rfl⟩
    rcases List.mem_filter.mp hf with ⟨hfmem, hfcsv⟩
    simp only [isCsvEntry, Bool.and_eq_true] at hfcsv
    refine ⟨?_, Or.inr ⟨s, hsmem, f, hfmem, rfl⟩⟩
    have hdata : (s.name ++ "/" ++ f).data = (s.name ++ "/").data ++ f.data :=
      String.data_append _ _
    rw [hdata]
    exact listIsSuffix_append_left _ _ _ hfcsv.1

/-- A directory with no top-level CSV and one subdirectory holding
`c.csv`. -/
def cexDirSub : DataDir :=
  ⟨"data", true, ["readme.txt"], [⟨"sub", ["c.csv"]⟩]⟩

/-- Witness for C10 on `cexDirSub`: the locator returns `sub/c.csv`,
which ends in `.csv`. -/
theorem c10_locator_result_shape_witness :
    find_csv_file cexDirSub = .ok "sub/c.csv" ∧
    listIsSuffix ".csv".data "sub/c.csv".data = true :=
  ⟨rfl, (c10_locator_result_shape cexDirSub "sub/c.csv" rfl).1⟩

end Dimuon
